import Mathlib

/-!
Shallow embedding of scripts/real-world-validate.py, the real-world
validation harness of the agnix repository.  Pure data flow is translated
directly; interactions with the operating system (filesystem checks,
subprocess execution, JSON parsing of tool output) are modelled by passing
the observed outcome of each external interaction as an explicit argument
(an event value), so that every function below is a total, computable Lean
function of the code logic plus the environment behaviour.
-/

/-- A structured diagnostic inside the tool output: the harness reads only
the `rule` field of each diagnostic (real-world-validate.py lines 188-190,
281-283). -/
structure Diagnostic where
  rule : String
deriving DecidableEq, Repr

/-- The parsed JSON object the agnix tool prints on stdout; the harness
aggregation reads only the `diagnostics` list (lines 277-283). -/
structure AgnixOutput where
  diagnostics : List Diagnostic
deriving DecidableEq, Repr

/-- The dict returned by `run_agnix` (lines 90-109):
exit_code, parsed output or None, stderr or None, wall_time_ms. -/
structure InvocationOutcome where
  exit_code : Int
  output : Option AgnixOutput
  stderr : Option String
  wall_time_ms : Nat
deriving DecidableEq, Repr

/-- Whitespace characters removed by Python str.strip(). -/
def isPySpace (c : Char) : Bool :=
  c = ' ' || c = '\t' || c = '\n' || c = '\r' || c = '\x0b' || c = '\x0c'

/-- Python str.strip(): drop leading and trailing whitespace.  Implemented
on the character list so that the kernel can evaluate it. -/
def pyStrip (s : String) : String :=
  ⟨((s.data.dropWhile isPySpace).reverse.dropWhile isPySpace).reverse⟩

/-- Models Python `result.stderr.strip() if result.stderr else None`
(line 93): the empty string is falsy and becomes None, otherwise the
string is stripped of surrounding whitespace. -/
def pyStderr (s : String) : Option String :=
  if s = "" then none else some (pyStrip s)

/-- What the environment does when `run_agnix` executes its subprocess:
either the process completes (with a return code, a parse attempt of its
stdout - none models a json.JSONDecodeError at line 87 -, raw stderr text
and the measured wall time in ms), or subprocess.run raises
TimeoutExpired, or launching raises some other exception. -/
inductive RunEvent where
  | completed (returncode : Int) (stdoutParse : Option AgnixOutput)
      (stderrRaw : String) (measured_ms : Nat)
  | timedOut
  | launchError (msg : String)
deriving DecidableEq, Repr

/-- The command line `run_agnix` builds (line 76):
`[agnix_bin, repo_path, "--format", "json", "--max-files", "5000"]`. -/
def agnix_cmd (agnix_bin repo_path : String) : List String :=
  [agnix_bin, repo_path, "--format", "json", "--max-files", "5000"]

/-- `run_agnix` (lines 75-109) as a function of the configured timeout and
of the event the subprocess layer produced.  The three branches are the
`try` body (lines 80-95), the `except subprocess.TimeoutExpired` handler
(lines 96-102) and the generic `except Exception` handler (lines 103-109). -/
def run_agnix (timeout : Nat) : RunEvent → InvocationOutcome
  | .completed rc parse errRaw ms =>
      { exit_code := rc, output := parse, stderr := pyStderr errRaw,
        wall_time_ms := ms }
  | .timedOut =>
      { exit_code := -1, output := none, stderr := some "agnix timeout",
        wall_time_ms := timeout * 1000 }
  | .launchError msg =>
      { exit_code := -1, output := none, stderr := some msg,
        wall_time_ms := 0 }

/-- The fixed bound, in seconds, on the git fetch in `clone_repo`
(line 64: `timeout=120`). -/
def cloneTimeoutSeconds : Nat := 120

/-- The git command `clone_repo` builds (lines 53-56):
shallow, single-branch, optionally pinned to a branch. -/
def clone_cmd (url : String) (branch : Option String) (dir : String) :
    List String :=
  ["git", "clone", "--depth", "1", "--single-branch"] ++
    (match branch with | some b => ["--branch", b] | none => []) ++
    [url, dir]

/-- What the environment does when `clone_repo` runs git: completes with a
return code and stderr text, or times out after `cloneTimeoutSeconds`, or
raises some other exception. -/
inductive CloneEvent where
  | completed (returncode : Int) (stderrRaw : String)
  | timedOut
  | exc (msg : String)
deriving DecidableEq, Repr

/-- The value `clone_repo` returns, together with the effect it performed:
`fetch` is the git command handed to the subprocess layer, or none when no
subprocess was spawned at all. -/
structure CloneResult where
  ok : Bool
  msg : String
  fetch : Option (List String)
deriving DecidableEq, Repr

/-- `clone_repo` (lines 47-72) as a function of whether `clone_dir.exists()`
observed the target directory (line 48) and of the event git produced.
When the directory exists it returns immediately (lines 48-49) without
building or running any command; otherwise the four outcomes of
lines 62-72 apply. -/
def clone_repo (url : String) (dir : String) (branch : Option String)
    (dirExists : Bool) (ev : CloneEvent) : CloneResult :=
  if dirExists then ⟨true, "already cloned", none⟩
  else
    match ev with
    | .completed rc errRaw =>
        if rc ≠ 0 then ⟨false, pyStrip errRaw, some (clone_cmd url branch dir)⟩
        else ⟨true, "ok", some (clone_cmd url branch dir)⟩
    | .timedOut => ⟨false, "clone timeout", some (clone_cmd url branch dir)⟩
    | .exc msg => ⟨false, msg, some (clone_cmd url branch dir)⟩

/-- A manifest entry (repos.yaml): url is required (line 113 indexes it
directly), branch, categories and status are optional with the defaults
applied at each use site (lines 31, 34, 123, 128). -/
structure Repo where
  url : String
  branch : Option String
  categories : List String
  status : Option String
deriving DecidableEq, Repr

/-- Python str.split(sep) on a character list: `[] ↦ [[]]`, and each
separator occurrence opens a new segment. -/
def splitChars (sep : Char) : List Char → List (List Char)
  | [] => [[]]
  | c :: rest =>
      match splitChars sep rest with
      | [] => if c = sep then [[], []] else [[c]]
      | h :: t => if c = sep then [] :: h :: t else (c :: h) :: t

/-- `repo_slug` (lines 42-44): strip trailing slashes from the url, split
on `/`, join the last two segments with `--`.  (For a url with fewer than
two segments Python would raise IndexError; the model returns the empty
list for the missing segment, a case no claim touches.) -/
def repo_slug (url : String) : String :=
  let parts := splitChars '/' (url.data.reverse.dropWhile (fun c => c = '/')).reverse
  ⟨parts.getD (parts.length - 2) [] ++ ('-' :: '-' :: parts.getD (parts.length - 1) [])⟩

/-- The result record `process_repo` returns and persists (lines 125-163):
clone_error is absent (none) in the success-shaped record, agnix is None in
the failure-shaped records. -/
structure ResultRecord where
  url : String
  slug : String
  categories : List String
  clone_success : Bool
  clone_error : Option String
  agnix : Option InvocationOutcome
deriving DecidableEq, Repr

/-- The externally visible effects of one `process_repo` call: the git
command handed to the subprocess layer (none when no clone subprocess was
spawned), whether the agnix tool was invoked, and the record written to the
result store (none when nothing was written). -/
structure ProcessEffects where
  fetch : Option (List String)
  invoked : Bool
  wrote : Option ResultRecord
deriving DecidableEq, Repr

/-- `process_repo` (lines 112-163) as a function of the cached record (the
contents of `result_file` when `result_file.exists()` at line 118 is true,
none otherwise), the skip_clone flag, the two filesystem observations of
`clone_dir.exists()` (inside clone_repo at line 48, and again at line 137),
and the events produced by the git and agnix subprocesses.  Returns the
record together with the effects performed. -/
def process_repo (repo : Repo) (clones_dir : String)
    (cached : Option ResultRecord) (skip_clone : Bool)
    (dirExists1 dirExists2 : Bool) (cloneEv : CloneEvent) (runEv : RunEvent)
    (timeout : Nat) : ResultRecord × ProcessEffects :=
  let url := repo.url
  let slug := repo_slug url
  let clone_dir := clones_dir ++ "/" ++ slug
  match cached with
  | some cachedRec => (cachedRec, ⟨none, false, none⟩)
  | none =>
    let cloneStep : Option CloneResult :=
      if skip_clone then none
      else some (clone_repo url clone_dir repo.branch dirExists1 cloneEv)
    let fetched : Option (List String) :=
      match cloneStep with
      | none => none
      | some cr => cr.fetch
    let afterCloneOk : ResultRecord × ProcessEffects :=
      if dirExists2 = false then
        let record : ResultRecord :=
          ⟨url, slug, repo.categories, false,
            some "clone directory not found (use without --skip-clone)",
            none⟩
        (record, ⟨fetched, false, some record⟩)
      else
        let inv := run_agnix timeout runEv
        let record : ResultRecord :=
          ⟨url, slug, repo.categories, true, none, some inv⟩
        (record, ⟨fetched, true, some record⟩)
    match cloneStep with
    | some cr =>
        if cr.ok = false then
          let record : ResultRecord :=
            ⟨url, slug, repo.categories, false, some cr.msg, none⟩
          (record, ⟨fetched, false, some record⟩)
        else afterCloneOk
    | none => afterCloneOk

/-- Python substring membership `p in s` on character lists. -/
def containsSub (p : List Char) : List Char → Bool
  | [] => p.isEmpty
  | c :: rest => p.isPrefixOf (c :: rest) || containsSub p rest

/-- Case-insensitive substring test used by the url filter (line 37):
`filter_pattern.lower() in r["url"].lower()`. -/
def substrCI (pat url : String) : Bool :=
  containsSub (pat.data.map Char.toLower) (url.data.map Char.toLower)

/-- The argparse default for the `--status` option (line 209). -/
def statusDefault : String := "pending"

/-- `load_repos` (lines 24-39) on an already-parsed manifest entry list.
Python truthiness is kept exactly: an empty status_filter string disables
the status filter, and a category or filter_pattern that is None or the
empty string disables that filter. -/
def load_repos (repos : List Repo) (filter_pat : Option String)
    (category : Option String) (status_filter : String) : List Repo :=
  let repos :=
    if status_filter ≠ "" then
      repos.filter (fun r => r.status.getD "pending" = status_filter)
    else repos
  let repos :=
    match category with
    | some c =>
        if c ≠ "" then repos.filter (fun r => r.categories.contains c)
        else repos
    | none => repos
  match filter_pat with
  | some p =>
      if p ≠ "" then repos.filter (fun r => substrCI p r.url)
      else repos
  | none => repos

/-- Python list slicing `xs[:n]`: the first n elements for n ≥ 0, all but
the last |n| elements for n < 0 (clamped at the empty list). -/
def pySlice (repos : List Repo) (n : Int) : List Repo :=
  if 0 ≤ n then repos.take n.toNat
  else repos.take (repos.length - (-n).toNat)

/-- The limit step of main (lines 224-225): `if args.limit:` is Python
truthiness, so a missing limit and a limit of 0 both leave the list
untouched; otherwise `repos = repos[:args.limit]`. -/
def applyLimit (limit : Option Int) (repos : List Repo) : List Repo :=
  match limit with
  | none => repos
  | some n => if n ≠ 0 then pySlice repos n else repos

/-- The repo selection pipeline of main (lines 223-225): all filters of
`load_repos`, then the limit cap. -/
def selectRepos (repos : List Repo) (filter_pat category : Option String)
    (status_filter : String) (limit : Option Int) : List Repo :=
  applyLimit limit (load_repos repos filter_pat category status_filter)

/-- How one invocation of main ends (lines 212-264): abort because the
repos file is missing (line 215), abort because the agnix binary is missing
(line 230), stop because no repos matched the filters (line 234), or run
the batch to completion carrying the number of worker-level failures
observed (line 264). -/
inductive MainOutcome where
  | exitReposFileMissing
  | exitBinMissing
  | exitNoRepos
  | completed (failures : Nat)
deriving DecidableEq, Repr

/-- The process exit code of each main outcome: sys.exit(1) at lines 215
and 230, sys.exit(0) at line 234, and the implicit exit 0 when main
returns normally. -/
def mainExitCode : MainOutcome → Nat
  | .exitReposFileMissing => 1
  | .exitBinMissing => 1
  | .exitNoRepos => 0
  | .completed _ => 0

/-- The control flow of main up to the batch (lines 212-236), as a function
of whether the repos file and the agnix binary exist, the parsed manifest
and the selection arguments, plus the number of per-item failures the batch
would record.  The order matches the source: repos-file check, selection,
binary check, empty check, batch. -/
def mainRun (reposFileExists : Bool) (repos : List Repo)
    (filter_pat category : Option String) (status_filter : String)
    (limit : Option Int) (binExists : Bool) (failures : Nat) : MainOutcome :=
  if reposFileExists = false then .exitReposFileMissing
  else
    let selected := selectRepos repos filter_pat category status_filter limit
    if binExists = false then .exitBinMissing
    else if selected.isEmpty then .exitNoRepos
    else .completed failures

/-- First-match lookup in an association list, 0 when the key is absent:
`rules_global.get(rule, 0)` on the model of a Python dict whose insertion
order is the list order. -/
def lookupRule (m : List (String × Nat)) (rule : String) : Nat :=
  match m with
  | [] => 0
  | (r, c) :: rest => if r = rule then c else lookupRule rest rule

/-- `rules_global[rule] = rules_global.get(rule, 0) + 1` (line 283) on the
association-list model of the dict: bump the first entry with this key, or
append a fresh entry. -/
def bumpRule (m : List (String × Nat)) (rule : String) : List (String × Nat) :=
  match m with
  | [] => [(rule, 1)]
  | (r, c) :: rest =>
      if r = rule then (r, c + 1) :: rest else (r, c) :: bumpRule rest rule

/-- The guards of the aggregation loop (lines 271-275): a record
contributes its parsed output exactly when clone_success is truthy and the
output is not None.  (A record with clone_success true but agnix None would
make line 274 raise in Python; by the record invariant proved below such a
record is never constructed by the harness.) -/
def includedOutput (r : ResultRecord) : Option AgnixOutput :=
  if r.clone_success then r.agnix.bind (fun a => a.output) else none

/-- The outputs the aggregation loop iterates over, in record order. -/
def includedOutputs (rs : List ResultRecord) : List AgnixOutput :=
  rs.filterMap includedOutput

/-- One iteration of the aggregation loop (lines 270-283). -/
def aggStep (a : Nat × List (String × Nat) × Nat) (r : ResultRecord) :
    Nat × List (String × Nat) × Nat :=
  match includedOutput r with
  | none => a
  | some out =>
      let diags := out.diagnostics
      (a.1 + diags.length,
       diags.foldl (fun m d => bumpRule m d.rule) a.2.1,
       if diags.isEmpty then a.2.2 + 1 else a.2.2)

/-- The aggregate summary of main (lines 266-283):
(total_diags, rules_global, clean_repos). -/
def aggregate (results : List ResultRecord) :
    Nat × List (String × Nat) × Nat :=
  results.foldl aggStep (0, [], 0)

/-- The file states a concurrent reader can observe while `process_repo`
persists a record with `open(result_file, "w")` + `json.dump` (lines
133-134 and 160-161): the file either does not exist yet or holds some
text. -/
inductive FileState where
  | absent
  | content (s : String)
deriving DecidableEq, Repr

/-- The observable states of the result file during one put, when the
serialized record reaches the file as the given chunks: the record was
absent before the write (a present record short-circuits at line 118), the
truncating open leaves an empty file, and each chunk extends the text until
the full serialization is on disk.  The write goes directly to the final
path: no temporary file and no rename is involved (lines 133-134,
146-147, 160-161). -/
def putObservableStates (chunks : List String) : List FileState :=
  FileState.absent ::
    (List.range (chunks.length + 1)).map
      (fun i => FileState.content (String.join (chunks.take i)))

/-- The complete-record state a put is aiming for. -/
def putFinalState (chunks : List String) : FileState :=
  FileState.content (String.join chunks)

/-- The atomicity discipline the specification demands of `put`: every
observable intermediate state is either the old absence or the complete new
record. -/
def putAtomic (chunks : List String) : Prop :=
  ∀ s ∈ putObservableStates chunks,
    s = FileState.absent ∨ s = putFinalState chunks

instance (chunks : List String) : Decidable (putAtomic chunks) := by
  unfold putAtomic; infer_instance

/-- Sample manifest entry used in concrete witnesses. -/
def sampleRepo : Repo :=
  ⟨"https://github.com/acme/widget", none, ["a"], none⟩

/-- A diagnostic-bearing sample record: rule hits R1:2, R2:1. -/
def sampleRecA : ResultRecord :=
  ⟨"u1", "s1", [], true, none, some ⟨0, some ⟨[⟨"R1"⟩, ⟨"R1"⟩, ⟨"R2"⟩]⟩, none, 10⟩⟩

/-- A clean sample record: no diagnostics. -/
def sampleRecB : ResultRecord :=
  ⟨"u2", "s2", [], true, none, some ⟨0, some ⟨[]⟩, none, 11⟩⟩

/-- A sample record with rule hits R1:1. -/
def sampleRecC : ResultRecord :=
  ⟨"u3", "s3", [], true, none, some ⟨0, some ⟨[⟨"R1"⟩]⟩, none, 12⟩⟩

/-- The per-record invariant of the records `process_repo` constructs:
clone_success is false exactly when the agnix field is None, and a
clone_error string is present exactly on clone failure. -/
def recordWellFormed (r : ResultRecord) : Prop :=
  (r.clone_success = false ↔ r.agnix = none) ∧
    r.clone_error.isSome = !r.clone_success

/-- Total number of diagnostics over the records the aggregation loop
includes (clone_success truthy and parsed output present). -/
def totalDiags (rs : List ResultRecord) : Nat :=
  ((includedOutputs rs).map (fun o => o.diagnostics.length)).sum

/-- Number of included records whose diagnostics list is empty. -/
def cleanCount (rs : List ResultRecord) : Nat :=
  ((includedOutputs rs).filter (fun o => o.diagnostics.isEmpty)).length

/-- Number of diagnostics carrying the given rule over the included
records. -/
def ruleHits (q : String) (rs : List ResultRecord) : Nat :=
  ((includedOutputs rs).map
    (fun o => o.diagnostics.countP (fun d => d.rule = q))).sum

/-- C1: when a result record for the slug is already present in the result
store, `process_repo` returns that cached record unchanged, spawns no git
subprocess, performs no tool invocation and writes nothing, regardless of
the skip_clone flag, of whether the workspace directory exists, and of what
the external world would have done. -/
theorem process_repo_cache_hit (repo : Repo) (clones_dir : String)
    (cachedRec : ResultRecord) (skip_clone dirExists1 dirExists2 : Bool)
    (cloneEv : CloneEvent) (runEv : RunEvent) (timeout : Nat) :
    process_repo repo clones_dir (some cachedRec) skip_clone dirExists1
        dirExists2 cloneEv runEv timeout =
      (cachedRec, ⟨none, false, none⟩) := rfl

/-- C2: on timeout `run_agnix` returns exit_code -1, output None, the
timeout marker string as stderr, and the synthetic wall time
timeout * 1000 ms; in particular a timeout of 1 second yields
wall_time_ms = 1000. -/
theorem run_agnix_timeout_outcome (timeout : Nat) :
    run_agnix timeout RunEvent.timedOut =
        ⟨-1, none, some "agnix timeout", timeout * 1000⟩ ∧
      (run_agnix 1 RunEvent.timedOut).wall_time_ms = 1000 :=
  ⟨rfl, rfl⟩

/-- C3: when the subprocess completes but its stdout does not parse as
JSON, `run_agnix` returns output None while exit_code, stderr and
wall_time_ms keep the real measured values; whenever the measured wall time
differs from the synthetic values, the outcome differs from the timeout
outcome and from every launch-failure outcome. -/
theorem run_agnix_unparseable (timeout : Nat) (rc : Int) (errRaw : String)
    (ms : Nat) (msg : String) (hms1 : ms ≠ timeout * 1000) (hms0 : ms ≠ 0) :
    (run_agnix timeout (.completed rc none errRaw ms)).output = none ∧
    (run_agnix timeout (.completed rc none errRaw ms)).exit_code = rc ∧
    (run_agnix timeout (.completed rc none errRaw ms)).stderr
      = pyStderr errRaw ∧
    (run_agnix timeout (.completed rc none errRaw ms)).wall_time_ms = ms ∧
    run_agnix timeout (.completed rc none errRaw ms)
      ≠ run_agnix timeout RunEvent.timedOut ∧
    run_agnix timeout (.completed rc none errRaw ms)
      ≠ run_agnix timeout (.launchError msg) := by
  refine ⟨rfl, rfl, rfl, rfl, ?_, ?_⟩
  · intro heq
    exact hms1 (congrArg InvocationOutcome.wall_time_ms heq)
  · intro heq
    exact hms0 (congrArg InvocationOutcome.wall_time_ms heq)

/-- C3 witness: a concrete unparseable-output completion (exit 0, empty
stderr, 37 ms measured) under a 120 s timeout. -/
theorem run_agnix_unparseable_witness :
    (run_agnix 120 (.completed 0 none "" 37)).output = none ∧
    (run_agnix 120 (.completed 0 none "" 37)).exit_code = 0 ∧
    (run_agnix 120 (.completed 0 none "" 37)).stderr = pyStderr "" ∧
    (run_agnix 120 (.completed 0 none "" 37)).wall_time_ms = 37 ∧
    run_agnix 120 (.completed 0 none "" 37)
      ≠ run_agnix 120 RunEvent.timedOut ∧
    run_agnix 120 (.completed 0 none "" 37)
      ≠ run_agnix 120 (.launchError "No such file or directory") :=
  run_agnix_unparseable 120 0 "" 37 "No such file or directory"
    (by decide) (by decide)

/-- C7: when the target directory exists `clone_repo` succeeds immediately
with the exact message "already cloned" and spawns no git subprocess at
all (in particular the result never depends on what a fetch would have
done); when git times out it fails with the exact message "clone timeout";
the fetch bound is fixed at 120 seconds. -/
theorem clone_repo_cache_and_timeout (url dir : String)
    (branch : Option String) (ev : CloneEvent) :
    clone_repo url dir branch true ev = ⟨true, "already cloned", none⟩ ∧
    clone_repo url dir branch false CloneEvent.timedOut =
      ⟨false, "clone timeout", some (clone_cmd url branch dir)⟩ ∧
    cloneTimeoutSeconds = 120 :=
  ⟨rfl, rfl, rfl⟩

/-- C9: the harness exits 1 when the repos file is missing, exits 1 when
the tool binary is missing, exits 0 with the no-match outcome when the
selection is empty, and otherwise completes with exit 0 whatever number of
per-item failures the batch recorded. -/
theorem main_exit_codes (repos : List Repo) (filter_pat category : Option String)
    (status_filter : String) (limit : Option Int) (failures : Nat) :
    mainRun false repos filter_pat category status_filter limit true failures
        = MainOutcome.exitReposFileMissing ∧
    mainRun true repos filter_pat category status_filter limit false failures
        = MainOutcome.exitBinMissing ∧
    mainRun true repos filter_pat category status_filter limit true failures
        = (if (selectRepos repos filter_pat category status_filter
                limit).isEmpty
           then MainOutcome.exitNoRepos else MainOutcome.completed failures) ∧
    mainExitCode MainOutcome.exitReposFileMissing = 1 ∧
    mainExitCode MainOutcome.exitBinMissing = 1 ∧
    mainExitCode MainOutcome.exitNoRepos = 0 ∧
    mainExitCode (MainOutcome.completed failures) = 0 :=
  ⟨rfl, rfl, rfl, rfl, rfl, rfl, rfl⟩

/-- C10: every record `process_repo` itself constructs (no cache hit)
satisfies the record invariant - clone_success false exactly when agnix is
None, clone_error present exactly on clone failure - and is the record it
writes to the store. -/
theorem process_repo_record_invariant (repo : Repo) (clones_dir : String)
    (skip_clone dirExists1 dirExists2 : Bool) (cloneEv : CloneEvent)
    (runEv : RunEvent) (timeout : Nat) :
    recordWellFormed (process_repo repo clones_dir none skip_clone dirExists1
        dirExists2 cloneEv runEv timeout).1 ∧
    (process_repo repo clones_dir none skip_clone dirExists1 dirExists2
        cloneEv runEv timeout).2.wrote =
      some (process_repo repo clones_dir none skip_clone dirExists1 dirExists2
        cloneEv runEv timeout).1 := by
  cases skip_clone <;> cases dirExists1 <;> cases dirExists2 <;>
    cases cloneEv <;> cases runEv <;>
      simp [process_repo, clone_repo, run_agnix, recordWellFormed] <;>
        split_ifs <;> simp

/-- C5: for a nonempty status filter and category/url filters that are
either absent or nonempty strings, an entry is in the output of
`load_repos` exactly when it is in the manifest and passes the status
check (missing status defaults to "pending"), the category membership
check and the case-insensitive url substring check; the argparse default
for the status filter is "pending". -/
theorem load_repos_filter_semantics (repos : List Repo)
    (filter_pat category : Option String) (status_filter : String) (r : Repo)
    (hstatus : status_filter ≠ "") (hcat : category ≠ some "")
    (hpat : filter_pat ≠ some "") :
    (r ∈ load_repos repos filter_pat category status_filter ↔
      r ∈ repos ∧ r.status.getD "pending" = status_filter ∧
        category.all (fun c => r.categories.contains c) = true ∧
        filter_pat.all (fun p => substrCI p r.url) = true) ∧
    statusDefault = "pending" := by
  refine ⟨?_, rfl⟩
  cases category with
  | none =>
    cases filter_pat with
    | none => simp [load_repos, hstatus, List.mem_filter]
    | some p =>
      have hp : p ≠ "" := fun h => hpat (by rw [h])
      simp [load_repos, hstatus, hp, List.mem_filter, and_assoc]; tauto
  | some c =>
    have hc : c ≠ "" := fun h => hcat (by rw [h])
    cases filter_pat with
    | none =>
      simp [load_repos, hstatus, hc, List.mem_filter, and_assoc]; tauto
    | some p =>
      have hp : p ≠ "" := fun h => hpat (by rw [h])
      simp [load_repos, hstatus, hc, hp, List.mem_filter, and_assoc]; tauto

/-- C5 witness: the sample entry (no explicit status, category a) passes
the default filters. -/
theorem load_repos_filter_semantics_witness :
    (sampleRepo ∈ load_repos [sampleRepo] none (some "a") "pending" ↔
      sampleRepo ∈ [sampleRepo] ∧
        sampleRepo.status.getD "pending" = "pending" ∧
        (some "a").all (fun c => sampleRepo.categories.contains c) = true ∧
        (none : Option String).all
          (fun p => substrCI p sampleRepo.url) = true) ∧
    statusDefault = "pending" :=
  load_repos_filter_semantics [sampleRepo] none (some "a") "pending"
    sampleRepo (by decide) (by decide) (by decide)

/-- C6 counterexample: with a user-supplied cap of 0 on a one-entry
filtered sequence, the harness processes the whole sequence, not its first
0 elements - Python truthiness makes `if args.limit:` skip the slice. -/
theorem selectRepos_limit_zero_counterexample :
    selectRepos [sampleRepo] none none "pending" (some 0) ≠
      List.take (Int.toNat 0) [sampleRepo] := by decide

/-- C6 (amended): for every positive cap N the harness processes exactly
the first N elements of the filtered sequence (all of them when it is
shorter); a cap of 0 is treated like an absent cap and leaves the filtered
sequence untruncated. -/
theorem selectRepos_limit_semantics (repos : List Repo)
    (filter_pat category : Option String) (status_filter : String) (n : Int)
    (hn : 0 < n) :
    selectRepos repos filter_pat category status_filter (some n) =
      (load_repos repos filter_pat category status_filter).take n.toNat ∧
    selectRepos repos filter_pat category status_filter (some 0) =
      load_repos repos filter_pat category status_filter ∧
    selectRepos repos filter_pat category status_filter none =
      load_repos repos filter_pat category status_filter := by
  refine ⟨?_, by simp [selectRepos, applyLimit], rfl⟩
  simp [selectRepos, applyLimit, pySlice, hn.ne', hn.le]

/-- C6 witness: cap 1 on the one-entry selection. -/
theorem selectRepos_limit_semantics_witness :
    selectRepos [sampleRepo] none none "pending" (some 1) =
      (load_repos [sampleRepo] none none "pending").take (Int.toNat 1) ∧
    selectRepos [sampleRepo] none none "pending" (some 0) =
      load_repos [sampleRepo] none none "pending" ∧
    selectRepos [sampleRepo] none none "pending" none =
      load_repos [sampleRepo] none none "pending" :=
  selectRepos_limit_semantics [sampleRepo] none none "pending" 1 (by decide)

/-- C8 counterexample: the result-store write is not atomic - during a put
whose serialization reaches the file as the chunks "ab" then "cd", a
concurrent reader can observe a state that is neither the old absence nor
the complete new record. -/
theorem put_not_atomic_counterexample : ¬ putAtomic ["ab", "cd"] := by
  decide

/-- C8 (amended): the write goes directly to the final result path via a
truncating open followed by an incremental dump, with no write-then-rename
discipline; for every write whose serialized record is nonempty, the empty
file left by the truncating open is an observable state that is neither
the old absence nor the complete new record. -/
theorem put_partial_state_observable (chunks : List String)
    (h : String.join chunks ≠ "") :
    FileState.content "" ∈ putObservableStates chunks ∧
    FileState.content "" ≠ FileState.absent ∧
    FileState.content "" ≠ putFinalState chunks := by
  refine ⟨?_, by simp, ?_⟩
  · have h0 : FileState.content "" =
        FileState.content (String.join (List.take 0 chunks)) := by
      simp only [List.take_zero]; rfl
    rw [h0]
    exact List.mem_cons_of_mem _
      (List.mem_map_of_mem _ (by simp : 0 ∈ List.range (chunks.length + 1)))
  · simp only [putFinalState, ne_eq, FileState.content.injEq]
    exact fun e => h e.symm

/-- C8 witness: the two-chunk write. -/
theorem put_partial_state_observable_witness :
    FileState.content "" ∈ putObservableStates ["ab", "cd"] ∧
    FileState.content "" ≠ FileState.absent ∧
    FileState.content "" ≠ putFinalState ["ab", "cd"] :=
  put_partial_state_observable ["ab", "cd"] (by decide)

/-- One bump of the rule frequency table changes exactly the bumped key. -/
theorem lookupRule_bumpRule (m : List (String × Nat)) (r q : String) :
    lookupRule (bumpRule m r) q =
      lookupRule m q + (if r = q then 1 else 0) := by
  induction m with
  | nil => by_cases h : r = q <;> simp [bumpRule, lookupRule, h]
  | cons hd tl ih =>
    obtain ⟨a, c⟩ := hd
    by_cases har : a = r
    · subst har
      by_cases haq : a = q <;> simp [bumpRule, lookupRule, haq]
    · by_cases haq : a = q
      · have hrq : r ≠ q := fun e => har (haq.trans e.symm)
        simp [bumpRule, lookupRule, har, haq, hrq, hrq.symm]
      · simp [bumpRule, lookupRule, har, haq, ih]

/-- Folding the bump over a diagnostics list adds, at each key, the number
of diagnostics carrying that rule. -/
theorem lookupRule_foldl_bump (diags : List Diagnostic)
    (m : List (String × Nat)) (q : String) :
    lookupRule (diags.foldl (fun acc d => bumpRule acc d.rule) m) q =
      lookupRule m q + diags.countP (fun d => d.rule = q) := by
  induction diags generalizing m with
  | nil => simp
  | cons d tl ih =>
    simp only [List.foldl_cons, ih, lookupRule_bumpRule, List.countP_cons]
    by_cases h : d.rule = q <;> simp [h] <;> omega

/-- Unfolding the aggregation fold from an arbitrary accumulator. -/
theorem aggregate_foldl (rs : List ResultRecord)
    (a : Nat × List (String × Nat) × Nat) (q : String) :
    (rs.foldl aggStep a).1 = a.1 + totalDiags rs ∧
    (rs.foldl aggStep a).2.2 = a.2.2 + cleanCount rs ∧
    lookupRule (rs.foldl aggStep a).2.1 q =
      lookupRule a.2.1 q + ruleHits q rs := by
  induction rs generalizing a with
  | nil => simp [totalDiags, cleanCount, ruleHits, includedOutputs]
  | cons r tl ih =>
    cases h : includedOutput r with
    | none =>
      simp only [List.foldl_cons]
      have step : aggStep a r = a := by simp [aggStep, h]
      rw [step]
      obtain ⟨h1, h2, h3⟩ := ih a
      refine ⟨?_, ?_, ?_⟩ <;>
        simp [h1, h2, h3, totalDiags, cleanCount, ruleHits, includedOutputs,
          List.filterMap_cons, h]
    | some out =>
      simp only [List.foldl_cons]
      have step : aggStep a r =
          (a.1 + out.diagnostics.length,
           out.diagnostics.foldl (fun m d => bumpRule m d.rule) a.2.1,
           if out.diagnostics.isEmpty then a.2.2 + 1 else a.2.2) := by
        simp [aggStep, h]
      rw [step]
      obtain ⟨h1, h2, h3⟩ := ih (a.1 + out.diagnostics.length,
        out.diagnostics.foldl (fun m d => bumpRule m d.rule) a.2.1,
        if out.diagnostics.isEmpty then a.2.2 + 1 else a.2.2)
      refine ⟨?_, ?_, ?_⟩
      · rw [h1]
        simp [totalDiags, includedOutputs, List.filterMap_cons, h]
        omega
      · rw [h2]
        by_cases he : out.diagnostics.isEmpty <;>
          simp [cleanCount, includedOutputs, List.filterMap_cons, h, he] <;>
            omega
      · rw [h3]
        simp only [lookupRule_foldl_bump]
        simp [ruleHits, includedOutputs, List.filterMap_cons, h]
        omega

/-- C4: the aggregation over the final records sums the diagnostics of the
included records (clone success, parsed output), counts as clean exactly
the included records with an empty diagnostics list, gives each rule the
number of diagnostics carrying it, and on the three sample records with
rule hits R1:2 R2:1, none, R1:1 reports total 4, frequencies R1:3 R2:1 and
one clean repo. -/
theorem aggregate_correct (rs : List ResultRecord) (q : String) :
    (aggregate rs).1 = totalDiags rs ∧
    (aggregate rs).2.2 = cleanCount rs ∧
    lookupRule (aggregate rs).2.1 q = ruleHits q rs ∧
    aggregate [sampleRecA, sampleRecB, sampleRecC] =
      (4, [("R1", 3), ("R2", 1)], 1) := by
  obtain ⟨h1, h2, h3⟩ := aggregate_foldl rs (0, [], 0) q
  exact ⟨by simpa using h1, by simpa using h2,
    by simpa [lookupRule] using h3, by decide⟩
